import Mathlib

/-!
Verification of the configuration-normalisation and publish core of
`src/app.py` (a Flask application that flattens JSON / web.config input
into variable records and publishes them as an Azure DevOps variable
group).  Python insertion-ordered dicts are embedded as association
lists with an in-place-update insert; machine strings are Lean strings.
-/

set_option autoImplicit false

namespace AzApp

universe u v

/-! # Definitions

## Python dict primitives

A Python `dict` is embedded as a `List (String × α)` with unique keys by
construction: assignment `d[k] = v` replaces the value in place when `k`
is already present (position unchanged) and appends otherwise. -/

/-- Lookup of the first entry with the given key (on a dict with unique
keys this is the only entry). -/
def listLookup {α : Type u} (l : List (String × α)) (k : String) : Option α :=
  (l.find? (fun p => p.1 = k)).map (·.2)

/-- Keys of an association list, in order. -/
def dictKeys {α : Type u} (l : List (String × α)) : List String :=
  l.map (·.1)

/-- Python dict assignment `d[k] = v`: replace in place or append. -/
def dictInsert {α : Type u} : List (String × α) → String → α → List (String × α)
  | [], k, v => [(k, v)]
  | p :: rest, k, v => if p.1 = k then (p.1, v) :: rest else p :: dictInsert rest k v

/-- Folding a sequence of assignments `d[k] = f k v` over a dict, as a
Python `for (k, v) in m: d[k] = f(k, v)` loop. -/
def dictInsertMany {α : Type u} {β : Type v} (d : List (String × α))
    (f : String → β → α) (m : List (String × β)) : List (String × α) :=
  m.foldl (fun d kv => dictInsert d kv.1 (f kv.1 kv.2)) d

/-- Replacement function applied to every entry of a dict by a batch of
assignments: the entry whose key occurs in `m` gets the (first) value
bound to that key, others are untouched. -/
def dictOverride {α : Type u} {β : Type v} (f : String → β → α)
    (m : List (String × β)) (p : String × α) : String × α :=
  match listLookup m p.1 with
  | some v => (p.1, f p.1 v)
  | none => p

/-! ## Variable records and the import merge of `load_data`

`src/app.py` lines 181-208: the route builds
`current_vars = \x7bvar["key"]: var for var in session["variables"]\x7d`,
then for each flattened `(k, v)` assigns
`current_vars[k] = \x7b"key": k, "value": v, "isSecret": False\x7d`,
and stores `list(current_vars.values())`. -/

/-- A row of the edit set: `{ key, value, isSecret }`. -/
structure VariableRecord where
  key : String
  value : String
  isSecret : Bool
deriving Repr, DecidableEq

/-- Keys of a list of records, in order. -/
def recordKeys (S : List VariableRecord) : List String :=
  S.map VariableRecord.key

/-- The dict comprehension `\x7bvar["key"]: var for var in S\x7d`. -/
def fromRecords (S : List VariableRecord) : List (String × VariableRecord) :=
  S.foldl (fun d r => dictInsert d r.key r) []

/-- Import merge of `load_data`: overlay a flattened mapping `m` onto the
session records `S`.  Existing keys are overwritten in place with a fresh
record `⟨k, v, false⟩`; new keys are appended. -/
def load_data_merge (S : List VariableRecord) (m : List (String × String)) :
    List VariableRecord :=
  (dictInsertMany (fromRecords S) (fun k v => ⟨k, v, false⟩) m).map (·.2)

/-- Effect of the import merge on a single pre-existing record: a record
whose key occurs in the incoming mapping is replaced by a fresh
non-secret record at the same key with the incoming value; other records
are untouched. -/
def overrideRecord (m : List (String × String)) (r : VariableRecord) : VariableRecord :=
  match listLookup m r.key with
  | some v => ⟨r.key, v, false⟩
  | none => r

/-- A freshly appended record for an incoming `(key, value)` pair. -/
def newRecord (kv : String × String) : VariableRecord :=
  ⟨kv.1, kv.2, false⟩

/-! ## JSON values and `flatten_json` (`src/app.py` lines 50-67) -/

/-- A parsed JSON document (the output of `json.loads`): objects and
arrays in document order, with string, integer, boolean and null
scalars. -/
inductive J where
  | obj : List (String × J) → J
  | arr : List J → J
  | str : String → J
  | int : Int → J
  | bool : Bool → J
  | null : J
deriving Repr

/-- Child path construction `f"{pk}.{k}" if pk else str(k)`. -/
def joinKey (pk k : String) : String :=
  if pk = "" then k else pk ++ "." ++ k

mutual
/-- The `_walk` closure of `flatten_json`: recurse into containers and
assign `out[pk] = "" if x is None else str(x)` at scalars. -/
def flattenWalk : J → String → List (String × String) → List (String × String)
  | .obj kvs, pk, out => flattenObj kvs pk out
  | .arr xs, pk, out => flattenArr xs 0 pk out
  | .str s, pk, out => dictInsert out pk s
  | .int n, pk, out => dictInsert out pk (toString n)
  | .bool b, pk, out => dictInsert out pk (if b then "True" else "False")
  | .null, pk, out => dictInsert out pk ""
/-- Loop over the members of an object node. -/
def flattenObj : List (String × J) → String → List (String × String) → List (String × String)
  | [], _, out => out
  | (k, v) :: rest, pk, out => flattenObj rest pk (flattenWalk v (joinKey pk k) out)
/-- Loop over an array node with `enumerate` index `i`. -/
def flattenArr : List J → Nat → String → List (String × String) → List (String × String)
  | [], _, _, out => out
  | v :: rest, i, pk, out => flattenArr rest (i + 1) pk (flattenWalk v (joinKey pk (toString i)) out)
end

/-- `flatten_json(obj)` with the default empty parent key. -/
def flatten_json (j : J) : List (String × String) :=
  flattenWalk j "" []

mutual
/-- Spec-side flattening, following the claim wording: recurse into
objects with child path `parent.member` (member alone at the root), into
sequences with the zero-based decimal index, and emit one entry per
scalar, as a plain concatenated list of entries (no overwriting). -/
def specFlatten : J → String → List (String × String)
  | .obj kvs, pk => specFlattenObj kvs pk
  | .arr xs, pk => specFlattenArr xs 0 pk
  | .str s, pk => [(pk, s)]
  | .int n, pk => [(pk, toString n)]
  | .bool b, pk => [(pk, if b then "True" else "False")]
  | .null, pk => [(pk, "")]
/-- Spec-side flattening of object members, concatenated in order. -/
def specFlattenObj : List (String × J) → String → List (String × String)
  | [], _ => []
  | (k, v) :: rest, pk => specFlatten v (joinKey pk k) ++ specFlattenObj rest pk
/-- Spec-side flattening of array elements, concatenated in order. -/
def specFlattenArr : List J → Nat → String → List (String × String)
  | [], _, _ => []
  | v :: rest, i, pk => specFlatten v (joinKey pk (toString i)) ++ specFlattenArr rest (i + 1) pk
end

/-! ## Secret classifier (`src/app.py` lines 40-48) -/

/-- Alternatives of the `SECRET_PATTERNS` regular expression.  The regex
`(t1|...|tn)$` with `re.IGNORECASE` matches via `search` exactly when the
lowercased subject ends with one of the alternatives. -/
def SECRET_PATTERNS : List String :=
  ["secret", "token", "password", "passwd", "apikey", "api_key",
   "client_secret", "connectionstring", "conn_str", "key"]

/-- ASCII lowercasing, the relevant part of `re.IGNORECASE`. -/
def pyLower (s : String) : String := String.mk (s.data.map Char.toLower)

/-- Python `str.split(sep)` with a one-character separator, on the
character list: the empty string yields one empty segment. -/
def splitCharAux (sep : Char) : List Char → List (List Char)
  | [] => [[]]
  | c :: rest =>
    let r := splitCharAux sep rest
    if c = sep then [] :: r
    else match r with
      | [] => [[c]]
      | h :: t => (c :: h) :: t

/-- Python `str.split(sep)` with a one-character separator. -/
def pySplitChar (sep : Char) (s : String) : List String :=
  (splitCharAux sep s.data).map String.mk

/-- Whether `s` ends with `t`. -/
def strEndsWith (s t : String) : Bool :=
  decide (s.data.reverse.take t.data.length = t.data.reverse)

/-- The final token examined by the classifier: the last
underscore-separated segment of the last dot-separated segment. -/
def lastToken (key_path : String) : String :=
  ((pySplitChar '.' key_path).getLastD "" |> pySplitChar '_').getLastD ""

/-- The classifier `is_secret_key`. -/
def is_secret_key (key_path : String) : Bool :=
  SECRET_PATTERNS.any (fun t => strEndsWith (pyLower (lastToken key_path)) t)

/-! ## Legacy XML parser (`src/app.py` lines 69-91) -/

/-- An XML element: tag, attributes in document order, children. -/
inductive XElem where
  | mk (tag : String) (attrs : List (String × String)) (children : List XElem)
deriving Repr

def XElem.tag : XElem → String
  | .mk t _ _ => t

def XElem.attrs : XElem → List (String × String)
  | .mk _ a _ => a

def XElem.children : XElem → List XElem
  | .mk _ _ c => c

/-- `element.find(tag)`: the first direct child with the given tag. -/
def xfind (e : XElem) (t : String) : Option XElem :=
  e.children.find? (fun c => c.tag = t)

/-- `element.findall(tag)`: all direct children with the given tag. -/
def xfindall (e : XElem) (t : String) : List XElem :=
  e.children.filter (fun c => c.tag = t)

/-- Loop body for an `appSettings` `add` element (lines 75-80): the
`key` attribute must be present and truthy (non-empty), the `value`
attribute present (the empty string is accepted). -/
def appSettingsEntry (sectionPfx : Bool) (add : XElem) : Option (String × String) :=
  match listLookup add.attrs "key", listLookup add.attrs "value" with
  | some k, some v =>
      if k = "" then none
      else some (if sectionPfx then "appSettings." ++ k else k, v)
  | _, _ => none

/-- Loop body for a `connectionStrings` `add` element (lines 84-89). -/
def connStringsEntry (sectionPfx : Bool) (add : XElem) : Option (String × String) :=
  match listLookup add.attrs "name", listLookup add.attrs "connectionString" with
  | some k, some v =>
      if k = "" then none
      else some (if sectionPfx then "connectionStrings." ++ k else k, v)
  | _, _ => none

/-- `parse_web_config` on the parsed document root (the embedding takes
the element tree produced by `ET.fromstring`; malformed XML raises
before this logic runs and is out of scope here). -/
def parse_web_config (root : XElem) (sectionPfx : Bool) : List (String × String) :=
  let out : List (String × String) := []
  let out := match xfind root "appSettings" with
    | some sec => (xfindall sec "add").foldl (fun out add =>
        match appSettingsEntry sectionPfx add with
        | some (k, v) => dictInsert out k v
        | none => out) out
    | none => out
  match xfind root "connectionStrings" with
  | some sec => (xfindall sec "add").foldl (fun out add =>
      match connStringsEntry sectionPfx add with
      | some (k, v) => dictInsert out k v
      | none => out) out
  | none => out

/-! ## Python string helpers for the publish path -/

/-- Python `str.strip()` restricted to ASCII whitespace (the claims and
the application only strip ASCII input). -/
def pyIsSpace (c : Char) : Bool :=
  c == ' ' || c == '\t' || c == '\n' || c == '\r' || c == '\x0b' || c == '\x0c'

/-- Python `str.strip()`. -/
def pyStrip (s : String) : String :=
  String.mk (((s.data.dropWhile pyIsSpace).reverse.dropWhile pyIsSpace).reverse)

/-- A single-quote character as a string. -/
def sq : String := String.singleton (Char.ofNat 39)

mutual
/-- Python `repr` of a parsed JSON value, as used by `str()` on
containers interpolated into f-strings.  Escaping of special characters
inside string literals is not modelled. -/
def pyRepr : J → String
  | .str s => sq ++ s ++ sq
  | .int n => toString n
  | .bool b => if b then "True" else "False"
  | .null => "None"
  | .obj kvs => "\x7b" ++ pyReprObj kvs ++ "\x7d"
  | .arr xs => "[" ++ pyReprArr xs ++ "]"
/-- Comma-separated repr of object members. -/
def pyReprObj : List (String × J) → String
  | [] => ""
  | [(k, v)] => sq ++ k ++ sq ++ ": " ++ pyRepr v
  | (k, v) :: rest => sq ++ k ++ sq ++ ": " ++ pyRepr v ++ ", " ++ pyReprObj rest
/-- Comma-separated repr of array elements. -/
def pyReprArr : List J → String
  | [] => ""
  | [v] => pyRepr v
  | v :: rest => pyRepr v ++ ", " ++ pyReprArr rest
end

/-- Python `str()` of a parsed JSON value: a string renders as itself,
anything else via repr. -/
def pyStr : J → String
  | .str s => s
  | v => pyRepr v

/-- Python `str()` of the result of `dict.get` with no default: `None`
renders as `"None"`. -/
def pyStrOpt : Option J → String
  | some v => pyStr v
  | none => "None"

/-- Python `len()` of a parsed JSON value; `none` when `len` would raise
`TypeError`. -/
def pyLen : J → Option Nat
  | .obj kvs => some kvs.length
  | .arr xs => some xs.length
  | .str s => some s.length
  | _ => none

/-! ## Remote publish protocol (`src/app.py` lines 93-148, 231-318) -/

/-- An HTTP response from the remote service: status code, the parsed
JSON body when `r.json()` succeeds (`none` models a body that is not
valid JSON), and the raw text body. -/
structure RemoteResponse where
  status : Nat
  jsonBody : Option J
  text : String

/-- A variable entry of the outgoing payload:
`\x7b"value": v, **(\x7b"isSecret": True\x7d if flag else \x7b\x7d)\x7d`;
the `isSecret` field is present (and `true`) exactly when the flag is
set. -/
structure VarEntry where
  value : String
  isSecret : Option Bool
deriving Repr, DecidableEq

/-- Entry built from one row of the variables table. -/
def rowEntry (r : VariableRecord) : VarEntry :=
  ⟨r.value, if r.isSecret then some true else none⟩

/-- The `variables` object of the payload (lines 123-131): rows whose
stripped key is empty are skipped; other rows are inserted under their
stripped key. -/
def build_variables_map (rows : List VariableRecord) : List (String × VarEntry) :=
  rows.foldl (fun vars r =>
    let key := pyStrip r.key
    if key = "" then vars else dictInsert vars key (rowEntry r)) []

/-- The `projectReference` object inside the payload. -/
structure ProjectReference where
  id : J
  name : String
deriving Repr

/-- One element of `variableGroupProjectReferences`. -/
structure VGProjectReference where
  projectReference : ProjectReference
  name : String
  description : String
deriving Repr

/-- The JSON payload posted to the variable-group endpoint
(lines 133-145). -/
structure Payload where
  type : String
  name : String
  description : String
  vars : List (String × VarEntry)
  variableGroupProjectReferences : List VGProjectReference
deriving Repr

/-- Python `description or "Created via Flask UI"` (the empty string is
falsy). -/
def descriptionOrDefault (description : String) : String :=
  if description = "" then "Created via Flask UI" else description

/-- The payload built by `create_variable_group` (lines 111-148). -/
def create_variable_group_payload (project : String) (project_id : J)
    (vg_name description : String) (variables_table : List VariableRecord) : Payload :=
  { type := "Vsts"
    name := vg_name
    description := descriptionOrDefault description
    vars := build_variables_map variables_table
    variableGroupProjectReferences :=
      [{ projectReference := { id := project_id, name := project }
         name := vg_name
         description := descriptionOrDefault description }] }

/-- Result of `get_project_id` (lines 98-109): on HTTP 200 the `id`
field of the body (default `""`), otherwise an error message
`"<status>: <msg>"` where `<msg>` is the `message` field of the JSON
body when available and the raw body text otherwise.  `exc` models the
uncaught exception raised when a 200 response body is not a JSON
object. -/
inductive ResolveResult where
  | ok (projectId : J)
  | err (msg : String)
  | exc
deriving Repr

/-- Best-effort error message of a failed resolve (lines 104-109):
`f"{r.status_code}: {msg}"` where `msg` is the `message` field of
the JSON body when the body is an object carrying one, and the raw body
text otherwise (also when `r.json()` raises or `.get` is unavailable). -/
def resolveErrMsg (resp : RemoteResponse) : String :=
  toString resp.status ++ ": " ++
    (match resp.jsonBody with
     | some (.obj d) =>
         match listLookup d "message" with
         | some m => pyStr m
         | none => resp.text
     | _ => resp.text)

/-- The project-resolution call, evaluated against the supplied
response. -/
def get_project_id (resp : RemoteResponse) : ResolveResult :=
  if resp.status = 200 then
    match resp.jsonBody with
    | some (.obj d) => .ok ((listLookup d "id").getD (.str ""))
    | _ => .exc
  else
    .err (resolveErrMsg resp)

/-! ## Session state and routes -/

/-- The `form_data` dict stored in the session (lines 239-246). -/
structure FormData where
  organization : String
  project : String
  pat_token : String
  variable_group_name : String
  vg_description : String
deriving Repr, DecidableEq

/-- The per-session state owned by the routes: the variable list and the
saved form fields. -/
structure SessionState where
  vars : List VariableRecord
  form_data : FormData
deriving Repr, DecidableEq

/-- Direct replacement of the session variable list by the
`/update_variables` route (lines 219-229): the submitted list is stored
verbatim. -/
def update_variables (st : SessionState) (incoming : List VariableRecord) : SessionState :=
  { st with vars := incoming }

/-- The request body of a publish attempt. -/
structure PublishRequest where
  organization : String
  project : String
  pat_token : String
  variable_group_name : String
  vg_description : String
  vars : List VariableRecord
deriving Repr

/-- A remote call issued during a publish attempt. -/
inductive RemoteCall where
  | resolve (organization project pat_token : String)
  | submit (organization : String) (payload : Payload) (pat_token : String)
deriving Repr

/-- Whether a remote call is the variable-group submission. -/
def RemoteCall.isSubmitCall : RemoteCall → Bool
  | .submit .. => true
  | _ => false

/-- The structured response of the publish route.  `exc` models the
catch-all handler of lines 317-318 (its message interpolates the Python
exception and is not modelled further). -/
inductive PublishOutcome where
  | ok (message : String)
  | fail (message : String) (error_detail : Option J)
  | exc
deriving Repr

/-- Everything observable about one publish attempt: the resulting
session state, the structured response, and the remote calls issued in
order. -/
structure CreateVGResult where
  state : SessionState
  outcome : PublishOutcome
  calls : List RemoteCall

/-- The validation loop of lines 251-259: labels of the blank fields, in
the fixed order of the checked list. -/
def missingLabels (fd : FormData) : List String :=
  ([("Organization", fd.organization), ("Project", fd.project),
    ("PAT Token", fd.pat_token),
    ("Variable Group Name", fd.variable_group_name)]).filterMap
    (fun lv => if pyStrip lv.2 = "" then some lv.1 else none)

/-- The form dict assembled from the request body (lines 239-245). -/
def fdOf (req : PublishRequest) : FormData :=
  ⟨req.organization, req.project, req.pat_token,
    req.variable_group_name, req.vg_description⟩

/-- The `/create_variable_group` route (lines 231-318).  The two remote
responses are supplied as oracles; `calls` records which remote calls
were actually issued. -/
def create_vg (st : SessionState) (req : PublishRequest)
    (resolveResp submitResp : RemoteResponse) : CreateVGResult :=
  let fd : FormData := fdOf req
  let st1 : SessionState := { st with form_data := fd }
  let missing := missingLabels fd
  if missing ≠ [] then
    { state := st1
      outcome := .fail ("Eksik alanlar: " ++ String.intercalate ", " missing) none
      calls := [] }
  else if req.vars = [] then
    { state := st1
      outcome := .fail "En az bir değişken ekleyin." none
      calls := [] }
  else
    let rc := RemoteCall.resolve fd.organization fd.project fd.pat_token
    match get_project_id resolveResp with
    | .exc => { state := st1, outcome := .exc, calls := [rc] }
    | .err e =>
        { state := st1
          outcome := .fail ("Proje bilgileri alınamadı: " ++ e) none
          calls := [rc] }
    | .ok pid =>
        let payload := create_variable_group_payload fd.project pid
          fd.variable_group_name fd.vg_description req.vars
        let calls := [rc, RemoteCall.submit fd.organization payload fd.pat_token]
        if submitResp.status = 200 ∨ submitResp.status = 201 then
          match submitResp.jsonBody with
          | some (.obj d) =>
              match pyLen ((listLookup d "variables").getD (.obj [])) with
              | some n =>
                  { state := { st1 with vars := [] }
                    outcome := .ok ("Variable Group başarıyla oluşturuldu! 🎉 ID: "
                      ++ pyStrOpt (listLookup d "id") ++ " | Ad: "
                      ++ pyStrOpt (listLookup d "name")
                      ++ " | Değişken sayısı: " ++ toString n)
                    calls := calls }
              | none => { state := st1, outcome := .exc, calls := calls }
          | _ => { state := st1, outcome := .exc, calls := calls }
        else
          { state := st1
            outcome := .fail ("Hata: " ++ toString submitResp.status)
              (some (match submitResp.jsonBody with
                     | some j => j
                     | none => .obj [("raw", .str submitResp.text)]))
            calls := calls }

/-! # Theorems -/

theorem dictKeys_nil {α : Type u} : dictKeys ([] : List (String × α)) = [] := rfl

theorem dictKeys_cons {α : Type u} (p : String × α) (l : List (String × α)) :
    dictKeys (p :: l) = p.1 :: dictKeys l := rfl

theorem dictKeys_append {α : Type u} (l l' : List (String × α)) :
    dictKeys (l ++ l') = dictKeys l ++ dictKeys l' := by
  simp [dictKeys]

theorem dictInsert_of_not_mem {α : Type u} {d : List (String × α)} {k : String}
    (v : α) (h : k ∉ dictKeys d) : dictInsert d k v = d ++ [(k, v)] := by
  induction d with
  | nil => rfl
  | cons p rest ih =>
    simp only [dictKeys_cons, List.mem_cons] at h
    push_neg at h
    simp only [dictInsert, if_neg (Ne.symm h.1)]
    rw [ih h.2]
    simp

theorem dictKeys_dictInsert {α : Type u} (d : List (String × α)) (k : String) (v : α) :
    dictKeys (dictInsert d k v) =
      if k ∈ dictKeys d then dictKeys d else dictKeys d ++ [k] := by
  induction d with
  | nil => simp [dictInsert, dictKeys]
  | cons p rest ih =>
    by_cases hp : p.1 = k
    · simp [dictInsert, hp, dictKeys_cons]
    · simp only [dictInsert, if_neg hp, dictKeys_cons, ih, List.mem_cons]
      have : ¬ k = p.1 := fun h => hp h.symm
      by_cases hk : k ∈ dictKeys rest <;> simp [hk, this]

theorem nodup_dictKeys_dictInsert {α : Type u} {d : List (String × α)}
    (k : String) (v : α) (h : (dictKeys d).Nodup) :
    (dictKeys (dictInsert d k v)).Nodup := by
  rw [dictKeys_dictInsert]
  by_cases hk : k ∈ dictKeys d
  · simpa [hk]
  · rw [if_neg hk]
    simp [List.nodup_append, h, hk]

/-- In-place update of a dict with unique keys at a present key: pointwise
replacement. -/
theorem dictInsert_of_mem {α : Type u} {d : List (String × α)} {k : String}
    (v : α) (hnd : (dictKeys d).Nodup) (h : k ∈ dictKeys d) :
    dictInsert d k v = d.map (fun p => if p.1 = k then (p.1, v) else p) := by
  induction d with
  | nil => cases h
  | cons p rest ih =>
    simp only [dictKeys_cons, List.nodup_cons] at hnd
    by_cases hp : p.1 = k
    · simp only [dictInsert, if_pos hp, List.map_cons, if_pos hp]
      have : rest.map (fun p => if p.1 = k then (p.1, v) else p) = rest.map id := by
        apply List.map_congr_left
        intro a ha
        have : a.1 ≠ k := fun hak => hnd.1 (hp ▸ hak ▸ (List.mem_map_of_mem _ ha))
        simp [this]
      rw [this, List.map_id]
    · have hk : k ∈ dictKeys rest := by
        rcases (List.mem_cons.mp h) with h1 | h1
        · exact absurd h1.symm hp
        · exact h1
      simp only [dictInsert, if_neg hp, List.map_cons, if_neg hp]
      rw [ih hnd.2 hk]

theorem listLookup_cons {α : Type u} (p : String × α) (l : List (String × α)) (k : String) :
    listLookup (p :: l) k = if p.1 = k then some p.2 else listLookup l k := by
  rw [listLookup, List.find?_cons]
  split
  · next h => simp_all [listLookup]
  · next h => simp_all [listLookup]

theorem listLookup_eq_none_of_not_mem {α : Type u} {l : List (String × α)} {k : String}
    (h : k ∉ dictKeys l) : listLookup l k = none := by
  induction l with
  | nil => rfl
  | cons p rest ih =>
    simp only [dictKeys_cons, List.mem_cons] at h
    push_neg at h
    rw [listLookup_cons, if_neg (Ne.symm h.1)]
    exact ih h.2

theorem listLookup_of_mem_nodup {α : Type u} {l : List (String × α)} {kv : String × α}
    (hnd : (dictKeys l).Nodup) (h : kv ∈ l) : listLookup l kv.1 = some kv.2 := by
  induction l with
  | nil => cases h
  | cons p rest ih =>
    simp only [dictKeys_cons, List.nodup_cons] at hnd
    rcases List.mem_cons.mp h with h1 | h1
    · rw [h1, listLookup_cons, if_pos rfl]
    · have : p.1 ≠ kv.1 := by
        intro hk
        exact hnd.1 (hk ▸ List.mem_map_of_mem _ h1)
      rw [listLookup_cons, if_neg this]
      exact ih hnd.2 h1

theorem dictOverride_fst {α : Type u} {β : Type v} (f : String → β → α)
    (m : List (String × β)) (p : String × α) : (dictOverride f m p).1 = p.1 := by
  unfold dictOverride
  split <;> rfl

/-- Characterisation of a Python loop `for (k, v) in m: d[k] = f(k, v)`
over a dict `d` with unique keys, when `m` itself binds each key once:
entries of `d` whose key occurs in `m` are overridden in place, and the
fresh keys of `m` are appended in order. -/
theorem dictInsertMany_char {α : Type u} {β : Type v} (f : String → β → α) :
    ∀ (m : List (String × β)) (d : List (String × α)),
      (dictKeys d).Nodup → (m.map Prod.fst).Nodup →
      dictInsertMany d f m =
        d.map (dictOverride f m)
        ++ (m.filter (fun kv => decide (kv.1 ∉ dictKeys d))).map
            (fun kv => (kv.1, f kv.1 kv.2))
  | [], d, _, _ => by
    have h1 : d.map (dictOverride f ([] : List (String × β))) = d.map id :=
      List.map_congr_left (fun p _ => rfl)
    simp only [dictInsertMany, List.foldl_nil, h1, List.map_id, List.filter_nil,
      List.map_nil, List.append_nil]
  | kv :: m', d, hd, hm => by
    have hm' : (m'.map Prod.fst).Nodup := (List.nodup_cons.mp hm).2
    have hkvm' : kv.1 ∉ m'.map Prod.fst := (List.nodup_cons.mp hm).1
    have hlm' : listLookup m' kv.1 = none := listLookup_eq_none_of_not_mem hkvm'
    have hstep : dictInsertMany d f (kv :: m')
        = dictInsertMany (dictInsert d kv.1 (f kv.1 kv.2)) f m' := rfl
    by_cases hmem : kv.1 ∈ dictKeys d
    · have hrepl := dictInsert_of_mem (f kv.1 kv.2) hd hmem
      have hkeys : dictKeys (dictInsert d kv.1 (f kv.1 kv.2)) = dictKeys d := by
        rw [dictKeys_dictInsert, if_pos hmem]
      have hd' : (dictKeys (dictInsert d kv.1 (f kv.1 kv.2))).Nodup := by
        rw [hkeys]; exact hd
      rw [hstep, dictInsertMany_char f m' _ hd' hm', hrepl]
      congr 1
      · rw [List.map_map]
        apply List.map_congr_left
        intro p _
        obtain ⟨p1, p2⟩ := p
        by_cases hp : p1 = kv.1
        · subst hp
          simp [dictOverride, hlm', listLookup_cons]
        · simp [dictOverride, listLookup_cons, hp, Ne.symm hp]
      · rw [hrepl] at hkeys
        rw [hkeys]
        have : (kv :: m').filter (fun kv => decide (kv.1 ∉ dictKeys d))
            = m'.filter (fun kv => decide (kv.1 ∉ dictKeys d)) := by
          rw [List.filter_cons]
          simp [hmem]
        rw [this]
    · have happ := dictInsert_of_not_mem (f kv.1 kv.2) hmem
      have hkeys : dictKeys (dictInsert d kv.1 (f kv.1 kv.2))
          = dictKeys d ++ [kv.1] := by
        rw [dictKeys_dictInsert, if_neg hmem]
      have hd' : (dictKeys (dictInsert d kv.1 (f kv.1 kv.2))).Nodup := by
        rw [hkeys]
        simp [List.nodup_append, hd, hmem]
      rw [hstep, dictInsertMany_char f m' _ hd' hm', happ]
      rw [List.map_append]
      have hmap1 : d.map (dictOverride f m') = d.map (dictOverride f (kv :: m')) := by
        apply List.map_congr_left
        intro p hp
        have : p.1 ≠ kv.1 := by
          intro h
          exact hmem (h ▸ List.mem_map_of_mem _ hp)
        simp only [dictOverride, listLookup_cons, if_neg (Ne.symm this)]
      have hmap2 : ([(kv.1, f kv.1 kv.2)] : List (String × α)).map (dictOverride f m')
          = [(kv.1, f kv.1 kv.2)] := by
        simp [dictOverride, hlm']
      have hfil : m'.filter (fun p => decide (p.1 ∉ dictKeys (dictInsert d kv.1 (f kv.1 kv.2))))
          = m'.filter (fun p => decide (p.1 ∉ dictKeys d)) := by
        apply List.filter_congr
        intro p hp
        have : p.1 ≠ kv.1 := by
          intro h
          exact hkvm' (h ▸ List.mem_map_of_mem _ hp)
        simp [hkeys, this]
      rw [happ] at hfil
      rw [hmap1, hmap2, hfil]
      have : (kv :: m').filter (fun p => decide (p.1 ∉ dictKeys d))
          = kv :: m'.filter (fun p => decide (p.1 ∉ dictKeys d)) := by
        rw [List.filter_cons]
        simp [hmem]
      rw [this]
      simp

theorem foldRecords_eq :
    ∀ (S : List VariableRecord) (d : List (String × VariableRecord)),
      (dictKeys d ++ recordKeys S).Nodup →
      S.foldl (fun d r => dictInsert d r.key r) d = d ++ S.map (fun r => (r.key, r))
  | [], d, _ => by simp
  | r :: S', d, h => by
    have h' : ((dictKeys d ++ [r.key]) ++ recordKeys S').Nodup := by
      rw [List.append_assoc, List.singleton_append]
      exact h
    have hdisj := List.disjoint_of_nodup_append h
    have hrk : r.key ∉ dictKeys d := fun hmem => hdisj hmem (by simp [recordKeys])
    have hstep : (r :: S').foldl (fun d r => dictInsert d r.key r) d
        = S'.foldl (fun d r => dictInsert d r.key r) (d ++ [(r.key, r)]) := by
      rw [List.foldl_cons, dictInsert_of_not_mem r hrk]
    rw [hstep, foldRecords_eq S' (d ++ [(r.key, r)]) (by simpa [dictKeys_append, dictKeys] using h')]
    simp

theorem fromRecords_eq (S : List VariableRecord) (hS : (recordKeys S).Nodup) :
    fromRecords S = S.map (fun r => (r.key, r)) := by
  have := foldRecords_eq S [] (by simpa [dictKeys])
  simpa [fromRecords] using this

theorem dictKeys_fromRecords_eq (S : List VariableRecord) (hS : (recordKeys S).Nodup) :
    dictKeys (fromRecords S) = recordKeys S := by
  rw [fromRecords_eq S hS]
  simp [dictKeys, recordKeys, List.map_map, Function.comp]

theorem overrideRecord_key (m : List (String × String)) (r : VariableRecord) :
    (overrideRecord m r).key = r.key := by
  unfold overrideRecord
  cases listLookup m r.key <;> rfl

theorem overrideRecord_idem (m : List (String × String)) (r : VariableRecord) :
    overrideRecord m (overrideRecord m r) = overrideRecord m r := by
  unfold overrideRecord
  cases h : listLookup m r.key <;> simp [h]

theorem overrideRecord_newRecord {m : List (String × String)} {kv : String × String}
    (hm : (m.map Prod.fst).Nodup) (hkv : kv ∈ m) :
    overrideRecord m (newRecord kv) = newRecord kv := by
  unfold overrideRecord newRecord
  rw [show (⟨kv.1, kv.2, false⟩ : VariableRecord).key = kv.1 from rfl,
    listLookup_of_mem_nodup hm hkv]

/-- Characterisation of the import merge on a key-unique record list and a
key-unique mapping: records whose key occurs in `m` are replaced in place by
`⟨key, new value, false⟩`, the rest are kept, and the fresh keys of `m` are
appended in order as non-secret records. -/
theorem load_data_merge_char (S : List VariableRecord) (m : List (String × String))
    (hS : (recordKeys S).Nodup) (hm : (m.map Prod.fst).Nodup) :
    load_data_merge S m =
      S.map (overrideRecord m)
      ++ (m.filter (fun kv => decide (kv.1 ∉ recordKeys S))).map newRecord := by
  have hkeys := dictKeys_fromRecords_eq S hS
  have hnd : (dictKeys (fromRecords S)).Nodup := by rw [hkeys]; exact hS
  rw [load_data_merge, dictInsertMany_char _ m (fromRecords S) hnd hm,
    fromRecords_eq S hS, List.map_append]
  congr 1
  · rw [List.map_map, List.map_map]
    apply List.map_congr_left
    intro r _
    cases h : listLookup m r.key <;>
      simp [dictOverride, overrideRecord, h]
  · rw [List.map_map]
    have hkeq : dictKeys (S.map (fun r => (r.key, r))) = recordKeys S := by
      rw [← fromRecords_eq S hS]
      exact hkeys
    rw [hkeq]
    simp [Function.comp, newRecord]

theorem recordKeys_load_data_merge (S : List VariableRecord)
    (m : List (String × String)) (hS : (recordKeys S).Nodup)
    (hm : (m.map Prod.fst).Nodup) :
    recordKeys (load_data_merge S m)
      = recordKeys S ++ (m.filter (fun kv => decide (kv.1 ∉ recordKeys S))).map Prod.fst := by
  rw [load_data_merge_char S m hS hm, recordKeys, List.map_append]
  congr 1
  · rw [List.map_map]
    apply List.map_congr_left
    intro r _
    exact overrideRecord_key m r
  · rw [List.map_map]
    apply List.map_congr_left
    intro kv _
    rfl

theorem nodup_recordKeys_load_data_merge (S : List VariableRecord)
    (m : List (String × String)) (hS : (recordKeys S).Nodup)
    (hm : (m.map Prod.fst).Nodup) :
    (recordKeys (load_data_merge S m)).Nodup := by
  rw [recordKeys_load_data_merge S m hS hm]
  rw [List.nodup_append]
  refine ⟨hS, ?_, ?_⟩
  · exact hm.sublist ((List.filter_sublist m).map Prod.fst)
  · intro a ha hb
    rcases List.mem_map.mp hb with ⟨kv, hkv, hfst⟩
    have := List.of_mem_filter hkv
    rw [hfst] at this
    exact (of_decide_eq_true this) ha

/-- C1.  The import merge replaces the value of an existing record in
place but does NOT preserve its `isSecret` flag: `load_data` overwrites
the whole record with `isSecret=False` (`src/app.py` lines 187, 200).
Merging `\x7b"k": "2"\x7d` into `[⟨"k","1",true⟩]` yields a record whose
flag is `false`, not `true` as the claim states. -/
theorem merge_secret_flag_counterexample :
    load_data_merge [⟨"k", "1", true⟩] [("k", "2")] = [⟨"k", "2", false⟩] ∧
    load_data_merge [⟨"k", "1", true⟩] [("k", "2")] ≠ [⟨"k", "2", true⟩] := by
  constructor
  · rfl
  · decide

/-- C1 (amended).  For a key-unique record list `S` and key-unique
mapping `m`, the import merge replaces the value of any record of `S`
whose key occurs in `m` while RESETTING that record `isSecret` flag to
`false` and preserving its position, and appends each key of `m` not
present in `S` as a new record with `isSecret=false`; in particular
merging `\x7b"k": "2"\x7d` into `[⟨"k","1",true⟩]` yields
`[⟨"k","2",false⟩]`. -/
theorem merge_overlay_resets_secret_flag (S : List VariableRecord)
    (m : List (String × String)) (hS : (recordKeys S).Nodup)
    (hm : (m.map Prod.fst).Nodup) :
    load_data_merge S m =
      S.map (overrideRecord m)
      ++ (m.filter (fun kv => decide (kv.1 ∉ recordKeys S))).map newRecord ∧
    load_data_merge [⟨"k", "1", true⟩] [("k", "2")] = [⟨"k", "2", false⟩] :=
  ⟨load_data_merge_char S m hS hm, rfl⟩

/-- Witness for C1 (amended) at a concrete input. -/
theorem merge_overlay_resets_secret_flag_witness :
    (recordKeys [⟨"a", "1", true⟩, ⟨"b", "2", false⟩]).Nodup ∧
    ([("b", "9"), ("c", "3")].map Prod.fst).Nodup ∧
    load_data_merge [⟨"a", "1", true⟩, ⟨"b", "2", false⟩] [("b", "9"), ("c", "3")]
      = [⟨"a", "1", true⟩, ⟨"b", "9", false⟩, ⟨"c", "3", false⟩] := by
  refine ⟨by decide, by decide, ?_⟩
  have h := merge_overlay_resets_secret_flag
    [⟨"a", "1", true⟩, ⟨"b", "2", false⟩] [("b", "9"), ("c", "3")]
    (by decide) (by decide)
  rw [h.1]
  rfl

/-- C3.  The import merge is idempotent on a key-unique record list and a
key-unique mapping: merging the same mapping twice yields the same record
list as merging it once. -/
theorem merge_idempotent (S : List VariableRecord) (m : List (String × String))
    (hS : (recordKeys S).Nodup) (hm : (m.map Prod.fst).Nodup) :
    load_data_merge (load_data_merge S m) m = load_data_merge S m := by
  have hS' : (recordKeys (load_data_merge S m)).Nodup :=
    nodup_recordKeys_load_data_merge S m hS hm
  have hkeys := recordKeys_load_data_merge S m hS hm
  rw [load_data_merge_char (load_data_merge S m) m hS' hm]
  have hfil : m.filter
      (fun kv => decide (kv.1 ∉ recordKeys (load_data_merge S m))) = [] := by
    rw [List.filter_eq_nil_iff]
    intro kv hkv
    simp only [decide_eq_true_eq, not_not]
    rw [hkeys]
    by_cases hmem : kv.1 ∈ recordKeys S
    · exact List.mem_append_left _ hmem
    · refine List.mem_append_right _ ?_
      exact List.mem_map.mpr
        ⟨kv, List.mem_filter.mpr ⟨hkv, by simpa using hmem⟩, rfl⟩
  rw [hfil]
  simp only [List.map_nil, List.append_nil]
  rw [load_data_merge_char S m hS hm, List.map_append, List.map_map, List.map_map]
  congr 1
  · apply List.map_congr_left
    intro r _
    simp only [Function.comp_apply]
    exact overrideRecord_idem m r
  · apply List.map_congr_left
    intro kv hkv
    simp only [Function.comp_apply]
    exact overrideRecord_newRecord hm (List.mem_of_mem_filter hkv)

/-- Witness for C3 at a concrete input. -/
theorem merge_idempotent_witness :
    (recordKeys [⟨"a", "1", true⟩]).Nodup ∧
    ([("a", "2"), ("b", "3")].map Prod.fst).Nodup ∧
    load_data_merge (load_data_merge [⟨"a", "1", true⟩] [("a", "2"), ("b", "3")])
        [("a", "2"), ("b", "3")]
      = load_data_merge [⟨"a", "1", true⟩] [("a", "2"), ("b", "3")] :=
  ⟨by decide, by decide, merge_idempotent _ _ (by decide) (by decide)⟩

theorem create_vg_missing (st : SessionState) (req : PublishRequest)
    (r1 r2 : RemoteResponse) (hM : missingLabels (fdOf req) ≠ []) :
    create_vg st req r1 r2 =
      { state := { st with form_data := fdOf req }
        outcome := .fail ("Eksik alanlar: "
          ++ String.intercalate ", " (missingLabels (fdOf req))) none
        calls := [] } := by
  unfold create_vg
  dsimp only
  rw [if_pos hM]

theorem create_vg_empty_vars (st : SessionState) (req : PublishRequest)
    (r1 r2 : RemoteResponse) (hM : missingLabels (fdOf req) = [])
    (hv : req.vars = []) :
    create_vg st req r1 r2 =
      { state := { st with form_data := fdOf req }
        outcome := .fail "En az bir değişken ekleyin." none
        calls := [] } := by
  unfold create_vg
  dsimp only
  rw [if_neg (fun h => h hM), if_pos hv]

theorem create_vg_resolve_err (st : SessionState) (req : PublishRequest)
    (r1 r2 : RemoteResponse) (e : String)
    (hM : missingLabels (fdOf req) = []) (hv : req.vars ≠ [])
    (he : get_project_id r1 = .err e) :
    create_vg st req r1 r2 =
      { state := { st with form_data := fdOf req }
        outcome := .fail ("Proje bilgileri alınamadı: " ++ e) none
        calls := [RemoteCall.resolve req.organization req.project req.pat_token] } := by
  unfold create_vg
  dsimp only
  rw [if_neg (fun h => h hM), if_neg hv, he]
  rfl

theorem create_vg_calls_ok (st : SessionState) (req : PublishRequest)
    (r1 r2 : RemoteResponse) (pid : J)
    (hM : missingLabels (fdOf req) = []) (hv : req.vars ≠ [])
    (hok : get_project_id r1 = .ok pid) :
    (create_vg st req r1 r2).calls
      = [RemoteCall.resolve req.organization req.project req.pat_token,
         RemoteCall.submit req.organization
           (create_variable_group_payload req.project pid
             req.variable_group_name req.vg_description req.vars)
           req.pat_token] := by
  unfold create_vg
  dsimp only
  rw [if_neg (fun h => h hM), if_neg hv, hok]
  dsimp only
  repeat' split
  all_goals rfl

theorem create_vg_submit_success (st : SessionState) (req : PublishRequest)
    (r1 r2 : RemoteResponse) (pid : J) (d : List (String × J)) (n : Nat)
    (hM : missingLabels (fdOf req) = []) (hv : req.vars ≠ [])
    (hok : get_project_id r1 = .ok pid)
    (hs : r2.status = 200 ∨ r2.status = 201)
    (hb : r2.jsonBody = some (.obj d))
    (hn : pyLen ((listLookup d "variables").getD (.obj [])) = some n) :
    create_vg st req r1 r2 =
      { state := { vars := [], form_data := fdOf req }
        outcome := .ok ("Variable Group başarıyla oluşturuldu! 🎉 ID: "
            ++ pyStrOpt (listLookup d "id") ++ " | Ad: "
            ++ pyStrOpt (listLookup d "name")
            ++ " | Değişken sayısı: " ++ toString n)
        calls := [RemoteCall.resolve req.organization req.project req.pat_token,
          RemoteCall.submit req.organization
            (create_variable_group_payload req.project pid
              req.variable_group_name req.vg_description req.vars)
            req.pat_token] } := by
  unfold create_vg
  dsimp only
  rw [if_neg (fun h => h hM), if_neg hv, hok]
  dsimp only
  rw [if_pos hs, hb]
  dsimp only
  rw [hn]
  rfl

theorem create_vg_state_vars (st : SessionState) (req : PublishRequest)
    (r1 r2 : RemoteResponse) :
    (create_vg st req r1 r2).state.vars = st.vars
    ∨ (create_vg st req r1 r2).state.vars = [] := by
  unfold create_vg
  dsimp only
  repeat' split
  all_goals first | exact Or.inl rfl | exact Or.inr rfl

/-- C2.  The stored variable list is NOT key-unique after every mutating
operation: the `/update_variables` route stores the submitted list
verbatim (`src/app.py` line 226), so a submitted list with a repeated
key violates the invariant even though the prior state satisfied it. -/
theorem update_variables_duplicate_keys_counterexample :
    (recordKeys (⟨[], ⟨"", "", "", "", ""⟩⟩ : SessionState).vars).Nodup
    ∧ ¬ (recordKeys (update_variables ⟨[], ⟨"", "", "", "", ""⟩⟩
        [⟨"k", "1", false⟩, ⟨"k", "2", false⟩]).vars).Nodup := by
  constructor
  · decide
  · decide

/-- C2 (amended).  The import merge and publish-and-clear preserve
key-uniqueness of the session variable list (the merge needs the
incoming mapping to bind each key once, which a Python dict guarantees);
direct replacement stores the submitted list verbatim and therefore
preserves the invariant exactly when the submitted list itself has
unique keys. -/
theorem variable_set_mutations_key_uniqueness :
    (∀ (S : List VariableRecord) (m : List (String × String)),
      (recordKeys S).Nodup → (m.map Prod.fst).Nodup →
      (recordKeys (load_data_merge S m)).Nodup)
    ∧ (∀ (st : SessionState) (req : PublishRequest) (r1 r2 : RemoteResponse),
      (recordKeys st.vars).Nodup →
      (recordKeys (create_vg st req r1 r2).state.vars).Nodup)
    ∧ (∀ (st : SessionState) (incoming : List VariableRecord),
      (recordKeys incoming).Nodup →
      (recordKeys (update_variables st incoming).vars).Nodup) := by
  refine ⟨nodup_recordKeys_load_data_merge, ?_, fun _ _ h => h⟩
  intro st req r1 r2 h
  rcases create_vg_state_vars st req r1 r2 with hv | hv <;> rw [hv]
  · exact h
  · simp [recordKeys]

/-- Witness for C2 (amended) at concrete inputs. -/
theorem variable_set_mutations_key_uniqueness_witness :
    (recordKeys (load_data_merge [⟨"a", "1", true⟩] [("b", "2")])).Nodup
    ∧ (recordKeys (create_vg ⟨[⟨"a", "1", true⟩], ⟨"", "", "", "", ""⟩⟩
        ⟨"o", "p", "t", "g", "d", [⟨"a", "1", true⟩]⟩
        ⟨404, none, "nf"⟩ ⟨500, none, "err"⟩).state.vars).Nodup
    ∧ (recordKeys (update_variables ⟨[], ⟨"", "", "", "", ""⟩⟩
        [⟨"x", "1", false⟩]).vars).Nodup := by
  have h := variable_set_mutations_key_uniqueness
  exact ⟨h.1 _ _ (by decide) (by decide), h.2.1 _ _ _ _ (by decide),
    h.2.2 _ _ (by decide)⟩

theorem missingLabels_fdOf (req : PublishRequest) :
    missingLabels (fdOf req) =
      (if pyStrip req.organization = "" then ["Organization"] else [])
      ++ (if pyStrip req.project = "" then ["Project"] else [])
      ++ (if pyStrip req.pat_token = "" then ["PAT Token"] else [])
      ++ (if pyStrip req.variable_group_name = ""
          then ["Variable Group Name"] else []) := by
  unfold missingLabels fdOf
  by_cases h1 : pyStrip req.organization = "" <;>
    by_cases h2 : pyStrip req.project = "" <;>
      by_cases h3 : pyStrip req.pat_token = "" <;>
        by_cases h4 : pyStrip req.variable_group_name = "" <;>
          simp [h1, h2, h3, h4]

theorem missingLabels_fdOf_eq_nil (req : PublishRequest) :
    missingLabels (fdOf req) = [] ↔
      (pyStrip req.organization ≠ "" ∧ pyStrip req.project ≠ ""
       ∧ pyStrip req.pat_token ≠ "" ∧ pyStrip req.variable_group_name ≠ "") := by
  rw [missingLabels_fdOf]
  by_cases h1 : pyStrip req.organization = "" <;>
    by_cases h2 : pyStrip req.project = "" <;>
      by_cases h3 : pyStrip req.pat_token = "" <;>
        by_cases h4 : pyStrip req.variable_group_name = "" <;>
          simp [h1, h2, h3, h4]

/-- C4.  When any of the four form fields is blank (empty or
whitespace-only) or the variable list is empty, publish fails before any
remote call: the call trace is empty and the outcome is a structured
failure; the missing-fields message names exactly the blank fields in
the fixed checking order, and an empty variable list (with all fields
filled) yields the add-at-least-one-variable failure. -/
theorem publish_validation_fails_fast (st : SessionState) (req : PublishRequest)
    (r1 r2 : RemoteResponse)
    (h : pyStrip req.organization = "" ∨ pyStrip req.project = ""
      ∨ pyStrip req.pat_token = "" ∨ pyStrip req.variable_group_name = ""
      ∨ req.vars = []) :
    (create_vg st req r1 r2).calls = []
    ∧ (∃ msg ed, (create_vg st req r1 r2).outcome = .fail msg ed)
    ∧ ((pyStrip req.organization = "" ∨ pyStrip req.project = ""
        ∨ pyStrip req.pat_token = "" ∨ pyStrip req.variable_group_name = "") →
        (create_vg st req r1 r2).outcome =
          .fail ("Eksik alanlar: " ++ String.intercalate ", "
            ((if pyStrip req.organization = "" then ["Organization"] else [])
              ++ (if pyStrip req.project = "" then ["Project"] else [])
              ++ (if pyStrip req.pat_token = "" then ["PAT Token"] else [])
              ++ (if pyStrip req.variable_group_name = ""
                  then ["Variable Group Name"] else []))) none)
    ∧ ((pyStrip req.organization ≠ "" ∧ pyStrip req.project ≠ ""
        ∧ pyStrip req.pat_token ≠ "" ∧ pyStrip req.variable_group_name ≠ "") →
        req.vars = [] →
        (create_vg st req r1 r2).outcome
          = .fail "En az bir değişken ekleyin." none) := by
  by_cases hM : missingLabels (fdOf req) = []
  · have hnb := (missingLabels_fdOf_eq_nil req).mp hM
    have hv : req.vars = [] := by
      rcases h with h1 | h1 | h1 | h1 | h1
      · exact absurd h1 hnb.1
      · exact absurd h1 hnb.2.1
      · exact absurd h1 hnb.2.2.1
      · exact absurd h1 hnb.2.2.2
      · exact h1
    rw [create_vg_empty_vars st req r1 r2 hM hv]
    refine ⟨rfl, ⟨_, _, rfl⟩, ?_, fun _ _ => rfl⟩
    intro hblank
    rcases hblank with h1 | h1 | h1 | h1
    · exact absurd h1 hnb.1
    · exact absurd h1 hnb.2.1
    · exact absurd h1 hnb.2.2.1
    · exact absurd h1 hnb.2.2.2
  · rw [create_vg_missing st req r1 r2 hM]
    refine ⟨rfl, ⟨_, _, rfl⟩, ?_, ?_⟩
    · intro _
      rw [missingLabels_fdOf]
    · intro hnb _
      exact absurd ((missingLabels_fdOf_eq_nil req).mpr hnb) hM

/-- Witness for C4: a whitespace-only organization with all else filled
names exactly `Organization` and issues no remote call; an empty
variable list with all fields filled yields the
add-at-least-one-variable failure. -/
theorem publish_validation_fails_fast_witness :
    (create_vg ⟨[], ⟨"", "", "", "", ""⟩⟩
      ⟨" ", "p", "t", "g", "d", [⟨"k", "v", false⟩]⟩
      ⟨200, none, ""⟩ ⟨200, none, ""⟩).calls = []
    ∧ (create_vg ⟨[], ⟨"", "", "", "", ""⟩⟩
      ⟨" ", "p", "t", "g", "d", [⟨"k", "v", false⟩]⟩
      ⟨200, none, ""⟩ ⟨200, none, ""⟩).outcome
        = .fail "Eksik alanlar: Organization" none
    ∧ (create_vg ⟨[], ⟨"", "", "", "", ""⟩⟩
      ⟨"o", "p", "t", "g", "d", []⟩
      ⟨200, none, ""⟩ ⟨200, none, ""⟩).outcome
        = .fail "En az bir değişken ekleyin." none := by
  have h1 := publish_validation_fails_fast ⟨[], ⟨"", "", "", "", ""⟩⟩
    ⟨" ", "p", "t", "g", "d", [⟨"k", "v", false⟩]⟩
    ⟨200, none, ""⟩ ⟨200, none, ""⟩ (Or.inl (by decide))
  have h2 := publish_validation_fails_fast ⟨[], ⟨"", "", "", "", ""⟩⟩
    ⟨"o", "p", "t", "g", "d", []⟩
    ⟨200, none, ""⟩ ⟨200, none, ""⟩ (Or.inr (Or.inr (Or.inr (Or.inr rfl))))
  refine ⟨h1.1, ?_, h2.2.2.2 (by decide) rfl⟩
  rw [h1.2.2.1 (Or.inl (by decide))]
  rfl

theorem get_project_id_of_ne_200 (resp : RemoteResponse) (h : resp.status ≠ 200) :
    get_project_id resp = .err (resolveErrMsg resp) := by
  unfold get_project_id
  rw [if_neg h]

/-- C5.  The submission call is never issued unless the resolution call
returned HTTP 200; and whenever validation passes and the resolution
status is not 200, publish issues exactly the resolve call and returns a
failure carrying that status code and the best-effort message extracted
from the response (the `message` field when present, else the raw
body). -/
theorem publish_resolve_gates_submit (st : SessionState) (req : PublishRequest)
    (r1 r2 : RemoteResponse) :
    (∀ c ∈ (create_vg st req r1 r2).calls, c.isSubmitCall = true → r1.status = 200)
    ∧ (missingLabels (fdOf req) = [] → req.vars ≠ [] → r1.status ≠ 200 →
        (create_vg st req r1 r2).calls
          = [RemoteCall.resolve req.organization req.project req.pat_token]
        ∧ (create_vg st req r1 r2).outcome
          = .fail ("Proje bilgileri alınamadı: " ++ resolveErrMsg r1) none) := by
  constructor
  · intro c hc hsub
    by_contra hne
    have herr := get_project_id_of_ne_200 r1 hne
    by_cases hM : missingLabels (fdOf req) = []
    · by_cases hv : req.vars = []
      · rw [create_vg_empty_vars st req r1 r2 hM hv] at hc
        simp at hc
      · rw [create_vg_resolve_err st req r1 r2 _ hM hv herr] at hc
        simp at hc
        rw [hc] at hsub
        exact absurd hsub (by simp [RemoteCall.isSubmitCall])
    · rw [create_vg_missing st req r1 r2 hM] at hc
      simp at hc
  · intro hM hv hne
    have herr := get_project_id_of_ne_200 r1 hne
    rw [create_vg_resolve_err st req r1 r2 _ hM hv herr]
    exact ⟨rfl, rfl⟩

/-- Witness for C5: a 404 resolve response leads to a resolve-only call
trace and the failure message built from the status and the extracted
message field. -/
theorem publish_resolve_gates_submit_witness :
    (create_vg ⟨[], ⟨"", "", "", "", ""⟩⟩
      ⟨"o", "p", "t", "g", "d", [⟨"k", "v", false⟩]⟩
      ⟨404, some (.obj [("message", .str "nf")]), "raw"⟩ ⟨201, none, ""⟩).calls
        = [RemoteCall.resolve "o" "p" "t"]
    ∧ (create_vg ⟨[], ⟨"", "", "", "", ""⟩⟩
      ⟨"o", "p", "t", "g", "d", [⟨"k", "v", false⟩]⟩
      ⟨404, some (.obj [("message", .str "nf")]), "raw"⟩ ⟨201, none, ""⟩).outcome
        = .fail "Proje bilgileri alınamadı: 404: nf" none := by
  have h := (publish_resolve_gates_submit ⟨[], ⟨"", "", "", "", ""⟩⟩
    ⟨"o", "p", "t", "g", "d", [⟨"k", "v", false⟩]⟩
    ⟨404, some (.obj [("message", .str "nf")]), "raw"⟩ ⟨201, none, ""⟩).2
    (by decide) (by decide) (by decide)
  refine ⟨h.1, ?_⟩
  rw [h.2]
  rfl

/-- C6.  When validation passes, resolution succeeded, and the
submission response has status 200 or 201 with a JSON-object body, the
session variable list is reset to empty and the outcome is a success
whose message embeds the `id` and `name` fields of the body and the
count of its `variables` member. -/
theorem publish_success_clears_and_reports (st : SessionState) (req : PublishRequest)
    (r1 r2 : RemoteResponse) (pid : J) (d : List (String × J)) (n : Nat)
    (hM : missingLabels (fdOf req) = []) (hv : req.vars ≠ [])
    (hok : get_project_id r1 = .ok pid)
    (hs : r2.status = 200 ∨ r2.status = 201)
    (hb : r2.jsonBody = some (.obj d))
    (hn : pyLen ((listLookup d "variables").getD (.obj [])) = some n) :
    (create_vg st req r1 r2).state.vars = []
    ∧ (create_vg st req r1 r2).outcome
      = .ok ("Variable Group başarıyla oluşturuldu! 🎉 ID: "
          ++ pyStrOpt (listLookup d "id") ++ " | Ad: "
          ++ pyStrOpt (listLookup d "name")
          ++ " | Değişken sayısı: " ++ toString n) := by
  rw [create_vg_submit_success st req r1 r2 pid d n hM hv hok hs hb hn]
  exact ⟨rfl, rfl⟩

/-- Witness for C6: an HTTP 201 submit response with body
`\x7b"id": 7, "name": "G", "variables": \x7b"a": 1, "b": 2\x7d\x7d` empties
the variable list and produces the confirmation containing `7`, `G` and
`2`. -/
theorem publish_success_clears_and_reports_witness :
    (create_vg ⟨[⟨"k", "v", false⟩], ⟨"", "", "", "", ""⟩⟩
      ⟨"o", "p", "t", "g", "d", [⟨"k", "v", false⟩]⟩
      ⟨200, some (.obj [("id", .str "pid")]), ""⟩
      ⟨201, some (.obj [("id", .int 7), ("name", .str "G"),
        ("variables", .obj [("a", .int 1), ("b", .int 2)])]), ""⟩).state.vars = []
    ∧ (create_vg ⟨[⟨"k", "v", false⟩], ⟨"", "", "", "", ""⟩⟩
      ⟨"o", "p", "t", "g", "d", [⟨"k", "v", false⟩]⟩
      ⟨200, some (.obj [("id", .str "pid")]), ""⟩
      ⟨201, some (.obj [("id", .int 7), ("name", .str "G"),
        ("variables", .obj [("a", .int 1), ("b", .int 2)])]), ""⟩).outcome
      = .ok "Variable Group başarıyla oluşturuldu! 🎉 ID: 7 | Ad: G | Değişken sayısı: 2" := by
  have h := publish_success_clears_and_reports
    ⟨[⟨"k", "v", false⟩], ⟨"", "", "", "", ""⟩⟩
    ⟨"o", "p", "t", "g", "d", [⟨"k", "v", false⟩]⟩
    ⟨200, some (.obj [("id", .str "pid")]), ""⟩
    ⟨201, some (.obj [("id", .int 7), ("name", .str "G"),
      ("variables", .obj [("a", .int 1), ("b", .int 2)])]), ""⟩
    (.str "pid")
    [("id", .int 7), ("name", .str "G"),
      ("variables", .obj [("a", .int 1), ("b", .int 2)])]
    2 (by decide) (by decide) rfl (Or.inr rfl) rfl rfl
  refine ⟨h.1, ?_⟩
  rw [h.2]
  rfl

theorem dictInsertMany_append {α : Type u} {β : Type v} (f : String → β → α)
    (d : List (String × α)) (m1 m2 : List (String × β)) :
    dictInsertMany d f (m1 ++ m2) = dictInsertMany (dictInsertMany d f m1) f m2 := by
  simp [dictInsertMany, List.foldl_append]

theorem dictInsertMany_nil_char {α : Type u} {β : Type v} (f : String → β → α)
    (m : List (String × β)) (hm : (m.map Prod.fst).Nodup) :
    dictInsertMany [] f m = m.map (fun kv => (kv.1, f kv.1 kv.2)) := by
  rw [dictInsertMany_char f m [] (by simp [dictKeys]) hm]
  simp [dictKeys]

theorem build_variables_map_foldl :
    ∀ (rows : List VariableRecord) (d : List (String × VarEntry)),
      rows.foldl (fun vars r =>
        let key := pyStrip r.key
        if key = "" then vars else dictInsert vars key (rowEntry r)) d
      = dictInsertMany d (fun _ e => e)
          ((rows.filter (fun r => decide (pyStrip r.key ≠ ""))).map
            (fun r => (pyStrip r.key, rowEntry r)))
  | [], d => by simp [dictInsertMany]
  | r :: rest, d => by
    rw [List.foldl_cons]
    dsimp only
    by_cases hk : pyStrip r.key = ""
    · rw [if_pos hk, build_variables_map_foldl rest d, List.filter_cons]
      simp [hk]
    · rw [if_neg hk,
        build_variables_map_foldl rest (dictInsert d (pyStrip r.key) (rowEntry r)),
        List.filter_cons]
      have hdec : decide (pyStrip r.key ≠ "") = true := by simp [hk]
      rw [hdec]
      simp only [if_true, List.map_cons]
      rfl

/-- The `variables` object of the payload, characterised: when the
stripped non-blank keys of the rows are pairwise distinct, it is exactly
the list of `(stripped key, entry)` pairs of the non-blank rows, in
order. -/
theorem build_variables_map_char (rows : List VariableRecord)
    (h : ((rows.filter (fun r => decide (pyStrip r.key ≠ ""))).map
        (fun r => pyStrip r.key)).Nodup) :
    build_variables_map rows
      = (rows.filter (fun r => decide (pyStrip r.key ≠ ""))).map
          (fun r => (pyStrip r.key, rowEntry r)) := by
  rw [build_variables_map, build_variables_map_foldl rows []]
  rw [dictInsertMany_nil_char _ _ (by rw [List.map_map]; exact h)]
  rw [List.map_map]
  apply List.map_congr_left
  intro r _
  rfl

/-- C7.  Rows are keyed in the payload by their STRIPPED key, not the
raw record key: a record with key `" a "` (not blank) contributes an
entry under `"a"`, and no entry exists under `" a "` itself, so the
payload does not map each record to its own key as the claim states. -/
theorem payload_key_trim_counterexample :
    pyStrip " a " ≠ ""
    ∧ listLookup (build_variables_map [⟨" a ", "v", false⟩]) " a " = none
    ∧ build_variables_map [⟨" a ", "v", false⟩] = [("a", ⟨"v", none⟩)] := by
  refine ⟨by decide, by decide, by decide⟩

/-- C7 (amended).  The payload carries the type marker `"Vsts"`, the
group name, the description (the fixed placeholder when the description
is empty), and a variables object with one entry per row whose stripped
key is non-empty, keyed by the STRIPPED key, where the entry holds the
row value and an `isSecret` field present exactly when the flag is true;
rows with an empty or whitespace-only key contribute nothing. -/
theorem payload_shape (project : String) (pid : J)
    (vg_name description : String) (rows : List VariableRecord)
    (h : ((rows.filter (fun r => decide (pyStrip r.key ≠ ""))).map
        (fun r => pyStrip r.key)).Nodup) :
    (create_variable_group_payload project pid vg_name description rows).type = "Vsts"
    ∧ (create_variable_group_payload project pid vg_name description rows).name = vg_name
    ∧ (description = "" →
        (create_variable_group_payload project pid vg_name description rows).description
          = "Created via Flask UI")
    ∧ (description ≠ "" →
        (create_variable_group_payload project pid vg_name description rows).description
          = description)
    ∧ (create_variable_group_payload project pid vg_name description rows).vars
        = (rows.filter (fun r => decide (pyStrip r.key ≠ ""))).map
            (fun r => (pyStrip r.key, rowEntry r))
    ∧ (∀ r : VariableRecord, r.isSecret = true → rowEntry r = ⟨r.value, some true⟩)
    ∧ (∀ r : VariableRecord, r.isSecret = false → rowEntry r = ⟨r.value, none⟩) := by
  refine ⟨rfl, rfl, ?_, ?_, ?_, ?_, ?_⟩
  · intro hd
    simp [create_variable_group_payload, descriptionOrDefault, hd]
  · intro hd
    simp [create_variable_group_payload, descriptionOrDefault, hd]
  · exact build_variables_map_char rows h
  · intro r hr
    simp [rowEntry, hr]
  · intro r hr
    simp [rowEntry, hr]

/-- Witness for C7 (amended): a secret row, a padded-key row and a
whitespace-only row produce exactly two entries, keyed by stripped keys,
with `isSecret` present only on the secret one; the empty description is
replaced by the placeholder. -/
theorem payload_shape_witness :
    ((([⟨"a", "1", true⟩, ⟨" b ", "2", false⟩, ⟨"  ", "3", false⟩]
        : List VariableRecord).filter
        (fun r => decide (pyStrip r.key ≠ ""))).map (fun r => pyStrip r.key)).Nodup
    ∧ (create_variable_group_payload "p" (.str "pid") "g" ""
        [⟨"a", "1", true⟩, ⟨" b ", "2", false⟩, ⟨"  ", "3", false⟩]).vars
        = [("a", ⟨"1", some true⟩), ("b", ⟨"2", none⟩)]
    ∧ (create_variable_group_payload "p" (.str "pid") "g" ""
        [⟨"a", "1", true⟩, ⟨" b ", "2", false⟩, ⟨"  ", "3", false⟩]).description
        = "Created via Flask UI" := by
  have h := payload_shape "p" (.str "pid") "g" ""
    [⟨"a", "1", true⟩, ⟨" b ", "2", false⟩, ⟨"  ", "3", false⟩] (by decide)
  refine ⟨by decide, ?_, h.2.2.1 rfl⟩
  rw [h.2.2.2.2.1]
  decide

mutual
theorem flattenWalk_eq (j : J) (pk : String) (out : List (String × String)) :
    flattenWalk j pk out = dictInsertMany out (fun _ v => v) (specFlatten j pk) := by
  cases j with
  | obj kvs => exact flattenObj_eq kvs pk out
  | arr xs => exact flattenArr_eq xs 0 pk out
  | str s => rfl
  | int n => rfl
  | bool b => rfl
  | null => rfl
theorem flattenObj_eq (kvs : List (String × J)) (pk : String)
    (out : List (String × String)) :
    flattenObj kvs pk out = dictInsertMany out (fun _ v => v) (specFlattenObj kvs pk) := by
  cases kvs with
  | nil => rfl
  | cons kv rest =>
    obtain ⟨k, v⟩ := kv
    show flattenObj rest pk (flattenWalk v (joinKey pk k) out)
      = dictInsertMany out (fun _ v => v)
          (specFlatten v (joinKey pk k) ++ specFlattenObj rest pk)
    rw [flattenWalk_eq v (joinKey pk k) out, flattenObj_eq rest pk,
      dictInsertMany_append]
theorem flattenArr_eq (xs : List J) (i : Nat) (pk : String)
    (out : List (String × String)) :
    flattenArr xs i pk out = dictInsertMany out (fun _ v => v) (specFlattenArr xs i pk) := by
  cases xs with
  | nil => rfl
  | cons v rest =>
    show flattenArr rest (i + 1) pk (flattenWalk v (joinKey pk (toString i)) out)
      = dictInsertMany out (fun _ v => v)
          (specFlatten v (joinKey pk (toString i)) ++ specFlattenArr rest (i + 1) pk)
    rw [flattenWalk_eq v (joinKey pk (toString i)) out, flattenArr_eq rest (i + 1) pk,
      dictInsertMany_append]
end

/-- C8.  On a JSON tree whose flattened paths are pairwise distinct (a
mapping), `flatten_json` produces exactly the spec-side recursive
flattening; and the concrete examples of the claim hold, including that
empty objects and sequences contribute no entry. -/
theorem flatten_json_spec (j : J)
    (h : ((specFlatten j "").map Prod.fst).Nodup) :
    flatten_json j = specFlatten j ""
    ∧ flatten_json (.obj [("a", .obj [("b", .int 1), ("c", .arr [.int 2, .int 3])])])
        = [("a.b", "1"), ("a.c.0", "2"), ("a.c.1", "3")]
    ∧ flatten_json (.obj []) = []
    ∧ flatten_json (.arr []) = []
    ∧ flatten_json (.obj [("a", .obj []), ("b", .arr []), ("c", .int 1)])
        = [("c", "1")] := by
  refine ⟨?_, by decide, rfl, rfl, by decide⟩
  rw [flatten_json, flattenWalk_eq j "" [], dictInsertMany_nil_char _ _ h]
  simp

/-- Witness for C8 at a concrete tree with null and boolean leaves. -/
theorem flatten_json_spec_witness :
    ((specFlatten (.obj [("a", .arr [.null, .bool true]), ("b", .str "x")]) "").map
        Prod.fst).Nodup
    ∧ flatten_json (.obj [("a", .arr [.null, .bool true]), ("b", .str "x")])
        = specFlatten (.obj [("a", .arr [.null, .bool true]), ("b", .str "x")]) "" := by
  refine ⟨by decide,
    (flatten_json_spec (.obj [("a", .arr [.null, .bool true]), ("b", .str "x")])
      (by decide)).1⟩

/-- C9.  The classifier returns true exactly when the last
underscore-separated segment of the last dot-separated segment of the
key, lowercased, ends with one of the ten secret tokens; in particular
`db.connectionString` is classified secret and `user.name` is not. -/
theorem is_secret_key_spec :
    (∀ k : String, is_secret_key k = true ↔
      ∃ t ∈ ["secret", "token", "password", "passwd", "apikey", "api_key",
             "client_secret", "connectionstring", "conn_str", "key"],
        strEndsWith (pyLower (lastToken k)) t = true)
    ∧ is_secret_key "db.connectionString" = true
    ∧ is_secret_key "user.name" = false := by
  refine ⟨fun k => ?_, by decide, by decide⟩
  rw [is_secret_key, List.any_eq_true, SECRET_PATTERNS]

/-- C10.  The legacy XML parser treats empty attribute values
asymmetrically: an `add` element whose `key` (or `name`) attribute is
present but empty yields no entry, while an `add` element whose `value`
(or `connectionString`) attribute is present and empty yields an entry
with the empty string as its value; the concrete document exercises all
four cases. -/
theorem parse_web_config_empty_attr_asymmetry :
    (∀ (sp : Bool) (e : XElem), listLookup e.attrs "key" = some "" →
      appSettingsEntry sp e = none)
    ∧ (∀ (sp : Bool) (e : XElem) (k : String), listLookup e.attrs "key" = some k →
      k ≠ "" → listLookup e.attrs "value" = some "" →
      appSettingsEntry sp e = some (if sp then "appSettings." ++ k else k, ""))
    ∧ (∀ (sp : Bool) (e : XElem), listLookup e.attrs "name" = some "" →
      connStringsEntry sp e = none)
    ∧ (∀ (sp : Bool) (e : XElem) (k : String), listLookup e.attrs "name" = some k →
      k ≠ "" → listLookup e.attrs "connectionString" = some "" →
      connStringsEntry sp e = some (if sp then "connectionStrings." ++ k else k, ""))
    ∧ parse_web_config
        (.mk "configuration" []
          [.mk "appSettings" []
            [.mk "add" [("key", ""), ("value", "x")] [],
             .mk "add" [("key", "a"), ("value", "")] []],
           .mk "connectionStrings" []
            [.mk "add" [("name", ""), ("connectionString", "y")] [],
             .mk "add" [("name", "c"), ("connectionString", "")] []]])
        false
      = [("a", ""), ("c", "")] := by
  refine ⟨?_, ?_, ?_, ?_, by decide⟩
  · intro sp e h
    unfold appSettingsEntry
    rw [h]
    cases listLookup e.attrs "value" <;> simp
  · intro sp e k hk hne hv
    unfold appSettingsEntry
    rw [hk, hv]
    simp [hne]
  · intro sp e h
    unfold connStringsEntry
    rw [h]
    cases listLookup e.attrs "connectionString" <;> simp
  · intro sp e k hk hne hv
    unfold connStringsEntry
    rw [hk, hv]
    simp [hne]

/-- Witness for C10 at concrete `add` elements. -/
theorem parse_web_config_empty_attr_asymmetry_witness :
    appSettingsEntry false (.mk "add" [("key", "a"), ("value", "")] [])
      = some ("a", "")
    ∧ appSettingsEntry false (.mk "add" [("key", ""), ("value", "x")] []) = none
    ∧ connStringsEntry false (.mk "add" [("name", "c"), ("connectionString", "")] [])
      = some ("c", "")
    ∧ connStringsEntry false (.mk "add" [("name", ""), ("connectionString", "y")] [])
      = none := by
  have h := parse_web_config_empty_attr_asymmetry
  refine ⟨?_, h.1 false _ (by decide), ?_, h.2.2.1 false _ (by decide)⟩
  · have := h.2.1 false (.mk "add" [("key", "a"), ("value", "")] []) "a"
      (by decide) (by decide) (by decide)
    simpa using this
  · have := h.2.2.2.1 false (.mk "add" [("name", "c"), ("connectionString", "")] []) "c"
      (by decide) (by decide) (by decide)
    simpa using this

end AzApp
